import Mathlib

/-!
Verification development for the EasyFill browser extension core:
the similarity engine, the keyword field-matching engine and its memoization
cache (`utils/fieldMatcher`), the domain blacklist filter and its sync
(`utils/blacklistService`), the keyword sync coordinator
(`entrypoints/background.ts`), and the retry/backoff loop of the keyword
service (`utils/keywordService`).

String values are modelled as Lean `String`s; JavaScript numbers as `ℚ`
(all arithmetic in scope is exact on small rationals); JS `Set` iteration
order as a `List`; `chrome.storage` as explicit record states threaded
through the sync functions; and `Math.random()` as an explicit rational
parameter in `[0,1]`.
-/

namespace EasyFill

/-! ### JS string primitives used by the source -/

/-- Model of JS `String.prototype.toLowerCase` (the source only relies on its
behaviour on basic-latin letters, which `Char.toLower` implements). -/
def jsToLower (s : String) : String := ⟨s.data.map Char.toLower⟩

/-- Model of JS `hay.includes(needle)`: substring containment. -/
def strContains (hay needle : String) : Bool :=
  hay.data.tails.any (fun t => needle.data.isPrefixOf t)

/-- Model of JS `s.startsWith(p)`. -/
def strStartsWith (s p : String) : Bool := p.data.isPrefixOf s.data

/-- Model of JS `s.endsWith(p)`. -/
def strEndsWith (s p : String) : Bool := p.data.isSuffixOf s.data

theorem charToLower_idem (c : Char) : Char.toLower (Char.toLower c) = Char.toLower c := by
  by_cases h : 65 ≤ c.toNat ∧ c.toNat ≤ 90
  · have h1 : Char.toLower c = Char.ofNat (c.toNat + 32) := by
      simp [Char.toLower, h.1, h.2]
    rw [h1]
    obtain ⟨hl, hr⟩ := h
    generalize hn : c.toNat = n at hl hr
    interval_cases n <;> decide
  · have h1 : Char.toLower c = c := by
      simp only [Char.toLower]
      rw [if_neg]
      intro hc
      exact h ⟨hc.1, hc.2⟩
    rw [h1, h1]

theorem jsToLower_idem (s : String) : jsToLower (jsToLower s) = jsToLower s := by
  have h : Char.toLower ∘ Char.toLower = Char.toLower := funext charToLower_idem
  simp [jsToLower, List.map_map, h]

theorem jsToLower_length (s : String) : (jsToLower s).length = s.length := by
  show (List.map Char.toLower s.data).length = s.data.length
  exact List.length_map _ _

/-! ### Similarity Engine (`stringSimilarity`, src/unnamed/part_015 lines 125-170)

The source fills a `(|s1|+1) × (|s2|+1)` matrix with
`matrix[i][j] = min(matrix[i-1][j]+1, matrix[i][j-1]+1, matrix[i-1][j-1]+cost)`
over the prefixes of the two (lower-cased) strings and reads off the
bottom-right corner; `levenshtein` below computes the same recurrence,
peeling characters from the front. -/

def levenshtein : List Char → List Char → Nat
  | [], ys => ys.length
  | x :: xs, [] => (x :: xs).length
  | x :: xs, y :: ys =>
    let cost : Nat := if x = y then 0 else 1
    Nat.min (levenshtein xs (y :: ys) + 1)
      (Nat.min (levenshtein (x :: xs) ys + 1) (levenshtein xs ys + cost))
termination_by xs ys => xs.length + ys.length
decreasing_by all_goals (simp [List.length_cons]; try omega)

theorem levenshtein_le_max : ∀ (xs ys : List Char),
    levenshtein xs ys ≤ Nat.max xs.length ys.length := by
  intro xs
  induction xs with
  | nil =>
    intro ys
    simp [levenshtein]
  | cons x xs ihx =>
    intro ys
    induction ys with
    | nil => simp [levenshtein]
    | cons y ys ihy =>
      have h3 : levenshtein xs ys ≤ Nat.max xs.length ys.length := ihx ys
      have hcost : (if x = y then 0 else 1) ≤ 1 := by split <;> omega
      have hstep : levenshtein (x :: xs) (y :: ys) ≤
          levenshtein xs ys + (if x = y then 0 else 1) := by
        conv_lhs => rw [levenshtein]
        exact Nat.le_trans (Nat.min_le_right _ _) (Nat.min_le_right _ _)
      simp only [List.length_cons]
      have hmax : Nat.max (xs.length + 1) (ys.length + 1) =
          Nat.max xs.length ys.length + 1 := Nat.succ_max_succ xs.length ys.length
      omega

/-- Direct translation of `stringSimilarity` (src/unnamed/part_015 lines
125-170): empty-string guards, lower-casing, exact equality, substring
containment at a 0.9 ceiling, otherwise normalized Levenshtein distance. -/
def stringSimilarity (str1 str2 : String) : ℚ :=
  if str1 = "" ∧ str2 = "" then 1
  else if str1 = "" ∨ str2 = "" then 0
  else if jsToLower str1 = jsToLower str2 then 1
  else if strContains (jsToLower str1) (jsToLower str2) ∨
      strContains (jsToLower str2) (jsToLower str1) then
    ((Nat.min (jsToLower str1).length (jsToLower str2).length : ℚ) /
      (Nat.max (jsToLower str1).length (jsToLower str2).length : ℚ)) * (9 / 10)
  else
    1 - (levenshtein (jsToLower str1).data (jsToLower str2).data : ℚ) /
      (Nat.max (jsToLower str1).length (jsToLower str2).length : ℚ)

theorem stringSimilarity_self (a : String) : stringSimilarity a a = 1 := by
  by_cases h : a = ""
  · simp [stringSimilarity, h]
  · simp [stringSimilarity, h]

theorem length_pos_of_ne_empty {s : String} (h : s ≠ "") : 1 ≤ (jsToLower s).length := by
  rw [jsToLower_length]
  cases s with
  | mk l =>
    cases l with
    | nil => exact absurd rfl h
    | cons c cs => simp [String.length]

theorem stringSimilarity_nonneg (a b : String) : 0 ≤ stringSimilarity a b := by
  unfold stringSimilarity
  split_ifs with h1 h2 h3 h4
  · norm_num
  · norm_num
  · norm_num
  · apply mul_nonneg
    · apply div_nonneg <;> positivity
    · norm_num
  · rw [sub_nonneg]
    have hb : b ≠ "" := fun hb => h2 (Or.inr hb)
    have hlen : 1 ≤ (jsToLower b).length := length_pos_of_ne_empty hb
    have hmaxpos : (0 : ℚ) < (Nat.max (jsToLower a).length (jsToLower b).length : ℚ) := by
      have hle : 1 ≤ Nat.max (jsToLower a).length (jsToLower b).length :=
        Nat.le_trans hlen (Nat.le_max_right _ _)
      exact_mod_cast Nat.lt_of_lt_of_le Nat.zero_lt_one hle
    rw [div_le_one hmaxpos]
    have hbound := levenshtein_le_max (jsToLower a).data (jsToLower b).data
    exact_mod_cast hbound

theorem stringSimilarity_le_one (a b : String) : stringSimilarity a b ≤ 1 := by
  unfold stringSimilarity
  split_ifs with h1 h2 h3 h4
  · norm_num
  · norm_num
  · norm_num
  · have ha : a ≠ "" := fun hh => h2 (Or.inl hh)
    have hlen : 1 ≤ (jsToLower a).length := length_pos_of_ne_empty ha
    have hmaxpos : (0 : ℚ) < (Nat.max (jsToLower a).length (jsToLower b).length : ℚ) := by
      have hle : 1 ≤ Nat.max (jsToLower a).length (jsToLower b).length :=
        Nat.le_trans hlen (Nat.le_max_left _ _)
      exact_mod_cast Nat.lt_of_lt_of_le Nat.zero_lt_one hle
    have hminmax : (Nat.min (jsToLower a).length (jsToLower b).length : ℚ) ≤
        (Nat.max (jsToLower a).length (jsToLower b).length : ℚ) := by
      have hmm : Nat.min (jsToLower a).length (jsToLower b).length ≤
          Nat.max (jsToLower a).length (jsToLower b).length :=
        Nat.le_trans (Nat.min_le_left _ _) (Nat.le_max_left _ _)
      exact_mod_cast hmm
    calc ((Nat.min (jsToLower a).length (jsToLower b).length : ℚ) /
          (Nat.max (jsToLower a).length (jsToLower b).length : ℚ)) * (9 / 10)
        ≤ 1 * (9 / 10) := by
          apply mul_le_mul_of_nonneg_right _ (by norm_num)
          rw [div_le_one hmaxpos]
          exact hminmax
      _ ≤ 1 := by norm_num
  · have hq : (0 : ℚ) ≤ (levenshtein (jsToLower a).data (jsToLower b).data : ℚ) /
        (Nat.max (jsToLower a).length (jsToLower b).length : ℚ) := by
      apply div_nonneg <;> positivity
    linarith

/-! ### Field Matching Engine (src/unnamed/part_015 lines 24-465)

`KeywordSets` maps each role (`name`, `email`, `url`, ...) to its keyword
set; JS object-key order and `Set` insertion order become list order. -/

inductive MatchMethod where
  | exact
  | fuzzy
  | levenshteinMethod
  | substring
  | semantic
  | context
  | patternMethod
deriving DecidableEq, Repr

structure MatchResult where
  matched : Bool
  fieldType : String
  confidence : ℚ
  method : MatchMethod
  keyword : Option String
deriving DecidableEq, Repr

structure FormContext where
  formId : Option String
  formAction : Option String
  nearbyLabels : List String
  nearbyFields : List String
  formType : Option String
  pageUrl : String
  pageType : Option String
deriving DecidableEq, Repr

structure MatchOptions where
  threshold : ℚ
  enableFuzzy : Bool
  enableSubstring : Bool
  enableContextual : Bool
  prioritizeExact : Bool
  maxDistance : Nat
  caseSensitive : Bool
  formContext : Option FormContext
deriving DecidableEq, Repr

/-- Model of the `Partial<MatchOptions>` argument: `none` = the field is
absent and the corresponding `DEFAULT_OPTIONS` entry applies. -/
structure PartialMatchOptions where
  threshold : Option ℚ
  enableFuzzy : Option Bool
  enableSubstring : Option Bool
  enableContextual : Option Bool
  prioritizeExact : Option Bool
  maxDistance : Option Nat
  caseSensitive : Option Bool
  formContext : Option FormContext
deriving DecidableEq, Repr

/-- The all-absent `Partial<MatchOptions>` (the `{}` default argument). -/
def emptyPartialOptions : PartialMatchOptions :=
  ⟨none, none, none, none, none, none, none, none⟩

/-- Model of `{ ...DEFAULT_OPTIONS, ...options }` (part_015 lines 87-95, 295). -/
def mergeOptions (p : PartialMatchOptions) : MatchOptions where
  threshold := p.threshold.getD (7 / 10)
  enableFuzzy := p.enableFuzzy.getD true
  enableSubstring := p.enableSubstring.getD true
  enableContextual := p.enableContextual.getD true
  prioritizeExact := p.prioritizeExact.getD true
  maxDistance := p.maxDistance.getD 3
  caseSensitive := p.caseSensitive.getD false
  formContext := p.formContext

abbrev KeywordSets : Type := List (String × List String)

def emptyResult : MatchResult := ⟨false, "", 0, MatchMethod.exact, none⟩

/-- Translation of `evaluateContextMatch` (part_015 lines 418-465): best label
similarity against the role keywords, then form-type multipliers, then
URL-path multipliers, applied in source order with no clamping. -/
def evaluateContextMatch (fieldType : String) (ctx : FormContext)
    (keywordSet : List String) : ℚ :=
  let base := ctx.nearbyLabels.foldl
    (fun m label => keywordSet.foldl
      (fun m2 kw =>
        if stringSimilarity label (jsToLower kw) > m2 then
          stringSimilarity label (jsToLower kw)
        else m2) m) 0
  let afterForm :=
    match ctx.formType with
    | none => base
    | some ft =>
      if ft = "" then base
      else if ft = "comment" then
        if fieldType = "name" then base * (11 / 10)
        else if fieldType = "email" then base * (11 / 10)
        else if fieldType = "url" then base * (12 / 10)
        else base
      else if ft = "contact" then
        if fieldType = "email" then base * (12 / 10) else base
      else if ft = "login" then
        if fieldType = "email" ∨ fieldType = "name" then base * (11 / 10) else base
      else if ft = "registration" then base * (21 / 20)
      else base
  if ctx.pageUrl = "" then afterForm
  else
    let lowerUrl := jsToLower ctx.pageUrl
    let u1 := if strContains lowerUrl "comment" ∧ fieldType = "name" then
      afterForm * (21 / 20) else afterForm
    let u2 := if strContains lowerUrl "profile" ∧
        (fieldType = "name" ∨ fieldType = "url") then u1 * (21 / 20) else u1
    if strContains lowerUrl "contact" ∧ fieldType = "email" then u2 * (21 / 20) else u2

/-- Exact-match scan of one role (part_015 lines 326-338): the first
normalized attribute found verbatim in the role keyword set. -/
def exactFind (opts : MatchOptions) (normAttrs keywordSet : List String) :
    Option String :=
  normAttrs.find? fun attr =>
    keywordSet.contains (if opts.caseSensitive then attr else jsToLower attr)

/-- One inner step of the substring strategy (part_015 lines 342-368). -/
def substringStep (opts : MatchOptions) (fieldType attr : String)
    (acc : MatchResult) (kw : String) : MatchResult :=
  let nkw := if opts.caseSensitive then kw else jsToLower kw
  if strContains attr nkw then
    let conf := ((nkw.length : ℚ) / (attr.length : ℚ)) * (9 / 10)
    if conf > acc.confidence then ⟨true, fieldType, conf, MatchMethod.substring, some kw⟩
    else acc
  else if strContains nkw attr then
    let conf := ((attr.length : ℚ) / (nkw.length : ℚ)) * (17 / 20)
    if conf > acc.confidence then ⟨true, fieldType, conf, MatchMethod.substring, some kw⟩
    else acc
  else acc

def substringPass (opts : MatchOptions) (fieldType : String)
    (normAttrs keywordSet : List String) (acc : MatchResult) : MatchResult :=
  normAttrs.foldl
    (fun a attr => keywordSet.foldl (substringStep opts fieldType attr) a) acc

/-- One inner step of the fuzzy strategy (part_015 lines 374-387). -/
def fuzzyStep (opts : MatchOptions) (fieldType attr : String)
    (acc : MatchResult) (kw : String) : MatchResult :=
  let nkw := if opts.caseSensitive then kw else jsToLower kw
  let sim := stringSimilarity attr nkw
  if sim ≥ opts.threshold ∧ sim > acc.confidence then
    ⟨true, fieldType, sim, MatchMethod.fuzzy, some kw⟩
  else acc

def fuzzyPass (opts : MatchOptions) (fieldType : String)
    (normAttrs keywordSet : List String) (acc : MatchResult) : MatchResult :=
  normAttrs.foldl
    (fun a attr => keywordSet.foldl (fuzzyStep opts fieldType attr) a) acc

/-- Contextual strategy for one role (part_015 lines 391-399). The `keyword`
field is not written by this branch in the source, so it is carried over. -/
def contextPass (opts : MatchOptions) (fieldType : String)
    (keywordSet : List String) (acc : MatchResult) : MatchResult :=
  if opts.enableContextual then
    match opts.formContext with
    | some ctx =>
      let c := evaluateContextMatch fieldType ctx keywordSet
      if c > acc.confidence then ⟨true, fieldType, c, MatchMethod.context, acc.keyword⟩
      else acc
    | none => acc
  else acc

/-- Non-exact strategies of one role iteration, in source order. -/
def roleStep (opts : MatchOptions) (normAttrs : List String)
    (acc : MatchResult) (role : String × List String) : MatchResult :=
  let acc1 := if opts.enableSubstring then
    substringPass opts role.1 normAttrs role.2 acc else acc
  let acc2 := if opts.enableFuzzy then
    fuzzyPass opts role.1 normAttrs role.2 acc1 else acc1
  contextPass opts role.1 role.2 acc2

/-- The role loop of `enhancedMatchKeywords` (part_015 lines 322-400):
`Sum.inl` is the early `return` taken on an exact hit, `Sum.inr` the
accumulated best result that still faces the final threshold check. -/
def matchRoles (opts : MatchOptions) (normAttrs : List String) :
    List (String × List String) → MatchResult → MatchResult ⊕ MatchResult
  | [], acc => Sum.inr acc
  | role :: rest, acc =>
    match (if opts.prioritizeExact then exactFind opts normAttrs role.2 else none) with
    | some attr => Sum.inl ⟨true, role.1, 1, MatchMethod.exact, some attr⟩
    | none => matchRoles opts normAttrs rest (roleStep opts normAttrs acc role)

/-- The tail of `enhancedMatchKeywords` (part_015 lines 402-407): an early
exact return is final, an accumulated result is demoted to `matched :=
false` when its confidence is below the threshold. -/
def finishMatch (opts : MatchOptions) (res : MatchResult ⊕ MatchResult) :
    MatchResult :=
  match res with
  | Sum.inl r => r
  | Sum.inr acc =>
    if acc.confidence < opts.threshold then { acc with matched := false } else acc

/-- Translation of `enhancedMatchKeywords` (part_015 lines 289-408). -/
def enhancedMatchKeywords (keywordSets : KeywordSets) (attributes : List String)
    (popts : PartialMatchOptions) : MatchResult :=
  let opts := mergeOptions popts
  if attributes.isEmpty then emptyResult
  else
    let validAttributes := attributes.filter (fun a => a ≠ "")
    if validAttributes.isEmpty then emptyResult
    else
      let normalizedAttributes :=
        if opts.caseSensitive then validAttributes
        else validAttributes.map jsToLower
      finishMatch opts (matchRoles opts normalizedAttributes keywordSets emptyResult)

/-! ### Match cache and `smartMatchKeywords` (part_015 lines 504-602)

`MatchCache.createKey` joins the sorted, empties-filtered attribute list and
`JSON.stringify`s only `threshold`, `enableFuzzy`, `enableSubstring` and
`caseSensitive` of the *partial* options (absent fields are omitted by
`JSON.stringify`, which is injective on this record, so the key is modelled
as the pair of the joined attribute string and those four optional fields).
The JS `Map` is modelled as an insertion-ordered association list. -/

structure CacheOptionsKey where
  threshold : Option ℚ
  enableFuzzy : Option Bool
  enableSubstring : Option Bool
  caseSensitive : Option Bool
deriving DecidableEq, Repr

abbrev CacheKey : Type := String × CacheOptionsKey

abbrev MatchCache : Type := List (CacheKey × MatchResult)

def matchCacheMaxSize : Nat := 500

/-- Translation of `MatchCache.createKey` (part_015 lines 522-531). -/
def matchCacheCreateKey (attributes : List String) (p : PartialMatchOptions) :
    CacheKey :=
  (String.intercalate "|"
      ((attributes.mergeSort (fun a b => decide (a ≤ b))).filter (fun a => a ≠ "")),
    ⟨p.threshold, p.enableFuzzy, p.enableSubstring, p.caseSensitive⟩)

/-- Translation of `MatchCache.get` (part_015 lines 540-543). -/
def matchCacheGet (cache : MatchCache) (attributes : List String)
    (p : PartialMatchOptions) : Option MatchResult :=
  (cache.find? fun e => e.1 = matchCacheCreateKey attributes p).map (fun e => e.2)

/-- Translation of `MatchCache.set` (part_015 lines 553-564): evict the
oldest half at capacity, then `Map.set` (replace in place or append). -/
def matchCacheSet (cache : MatchCache) (attributes : List String)
    (p : PartialMatchOptions) (result : MatchResult) : MatchCache :=
  let cache1 := if cache.length ≥ matchCacheMaxSize then
    cache.drop (matchCacheMaxSize / 2) else cache
  let key := matchCacheCreateKey attributes p
  if (cache1.find? fun e => e.1 = key).isSome then
    cache1.map (fun e => if e.1 = key then (key, result) else e)
  else cache1 ++ [(key, result)]

/-- Translation of `smartMatchKeywords` (part_015 lines 584-602), returning
the result together with the updated cache state. -/
def smartMatchKeywords (keywordSets : KeywordSets) (attributes : List String)
    (popts : PartialMatchOptions) (cache : MatchCache) : MatchResult × MatchCache :=
  match matchCacheGet cache attributes popts with
  | some r => (r, cache)
  | none =>
    let r := enhancedMatchKeywords keywordSets attributes popts
    (r, matchCacheSet cache attributes popts r)

/-! ### Domain Blacklist Filter (src/entrypoints/utils/blacklistService.ts) -/

structure BlacklistStatus where
  blacklistEnabled : Bool
  blacklistUrl : String
  officialBlacklist : List String
  userBlacklist : List String
  lastSync : Nat
deriving DecidableEq, Repr

structure DomainCheckResult where
  allowed : Bool
  reason : String
deriving DecidableEq, Repr

/-- One entry test of `checkDomainInBlacklist` (blacklistService.ts lines
387-400): wildcard `*.suffix` entries match the suffix itself or any
subdomain; plain entries match themselves or any subdomain. -/
def blacklistEntryMatches (normalizedDomain entry : String) : Bool :=
  let normalizedBlackDomain := jsToLower entry
  if strStartsWith normalizedBlackDomain "*." then
    let baseDomain := normalizedBlackDomain.drop 2
    strEndsWith normalizedDomain ("." ++ baseDomain) || normalizedDomain = baseDomain
  else
    normalizedDomain = normalizedBlackDomain ||
      strEndsWith normalizedDomain ("." ++ normalizedBlackDomain)

/-- Translation of `checkDomainInBlacklist` (blacklistService.ts lines
379-413), the non-exceptional path (the catch-all fail-open branch concerns
storage faults outside this model). -/
def checkDomainInBlacklist (status : BlacklistStatus) (domain : String) :
    DomainCheckResult :=
  let normalizedDomain := jsToLower domain
  if status.blacklistEnabled then
    if (status.officialBlacklist ++ status.userBlacklist).any
        (fun blackDomain => blacklistEntryMatches normalizedDomain blackDomain) then
      ⟨false, "域名在黑名单中"⟩
    else ⟨true, "域名允许填充"⟩
  else ⟨true, "域名允许填充"⟩

/-- Modelled from the spec wording of §4.4 (same algorithm, written from the
`if the entry starts with *., match when hostname === suffix or hostname
ends with . + suffix; otherwise match when hostname === entry or hostname
ends with . + entry` sentence) for the refinement comparison with
`blacklistEntryMatches`. -/
def specEntryMatches (hostname entry : String) : Bool :=
  let e := jsToLower entry
  if strStartsWith e "*." then
    hostname = e.drop 2 || strEndsWith hostname ("." ++ e.drop 2)
  else
    hostname = e || strEndsWith hostname ("." ++ e)

/-! ### Sync Coordinator for keywords (src/entrypoints/background.ts)

`syncKeywordsData` is modelled as a pure state transformer over the four
persisted values it touches, taking the would-be `fetch` result and the
current time as explicit inputs, and additionally reporting whether the
HTTP request was issued at all. -/

structure KwData where
  name : List String
  email : List String
  url : List String
deriving DecidableEq, Repr

/-- Result of `response.json()` plus the schema validation of background.ts
line 718: `unparseable` = `response.json()` threw, `invalid` = parsed but
missing one of the three role arrays. -/
inductive JsonBody where
  | unparseable
  | invalid
  | valid (d : KwData)
deriving DecidableEq, Repr

inductive FetchReply where
  | response (status : Nat) (etagHeader : Option String)
      (lastModifiedHeader : Option String) (body : JsonBody)
  | abortTimeout
  | networkError (message : String)
deriving DecidableEq, Repr

/-- The persisted keyword-sync state: cached snapshot
(`easyfill_keywords_cache`), validators (`easyfill_keywords_etag`,
`easyfill_keywords_last_modified`) and `easyfill_last_sync`. -/
structure KwSyncState where
  snapshot : Option KwData
  etag : Option String
  lastModified : Option String
  lastSyncAt : Option Nat
deriving DecidableEq, Repr

/-- Settings and connectivity read at the start of a sync invocation. -/
structure SyncEnv where
  online : Bool
  syncEnabled : Bool
  keywordsUrl : String
  networkType : String
  wifiConnected : Bool
deriving DecidableEq, Repr

structure SyncOutcome where
  success : Bool
  message : String
  data : Option KwData
deriving DecidableEq, Repr

/-- Translation of `syncKeywordsData` (background.ts lines 527-757). The
third component records whether `fetch` was reached. On a 2xx response the
new validators are stored (lines 689-706) before the body is parsed and
validated (lines 709-721); snapshot and `lastSyncAt` are stored only after
validation succeeds (lines 724-727). -/
def syncKeywordsData (forceSync : Bool) (env : SyncEnv) (st : KwSyncState)
    (reply : FetchReply) (now : Nat) : KwSyncState × SyncOutcome × Bool :=
  if env.online = false then (st, ⟨false, "设备当前处于离线状态", none⟩, false)
  else if env.syncEnabled = false ∧ forceSync = false then
    (st, ⟨false, "自动同步已禁用", none⟩, false)
  else if env.keywordsUrl = "" then (st, ⟨false, "关键字 URL 未配置", none⟩, false)
  else if forceSync = false ∧ env.networkType = "wifi_only" ∧
      env.wifiConnected = false then
    (st, ⟨false, "当前非WiFi环境，已跳过同步", none⟩, false)
  else
    match reply with
    | FetchReply.abortTimeout => (st, ⟨false, "同步请求超时", none⟩, true)
    | FetchReply.networkError msg => (st, ⟨false, msg, none⟩, true)
    | FetchReply.response status etagHeader lastModifiedHeader body =>
      if status = 304 then
        ({ st with lastSyncAt := some now }, ⟨true, "关键字数据未更新", none⟩, true)
      else if ¬ (200 ≤ status ∧ status ≤ 299) then
        let st1 := if status = 404 then
          { st with etag := none, lastModified := none } else st
        (st1, ⟨false, "HTTP 错误: " ++ toString status, none⟩, true)
      else
        let st1 : KwSyncState :=
          { st with
            etag := match etagHeader with
              | some e => some e
              | none => st.etag
            lastModified := match lastModifiedHeader with
              | some l => some l
              | none => st.lastModified }
        match body with
        | JsonBody.unparseable => (st1, ⟨false, "无法解析服务器返回的关键字数据", none⟩, true)
        | JsonBody.invalid => (st1, ⟨false, "关键字数据格式不正确", none⟩, true)
        | JsonBody.valid d =>
          ({ st1 with snapshot := some d, lastSyncAt := some now },
            ⟨true, "关键字数据已成功更新", some d⟩, true)

/-- Translation of the due-check and dispatch of `handleNetworkChange`
(background.ts lines 305-350), the guarded caller of `syncKeywordsData`:
a non-forced sync is issued only when the network class permits it and
either no prior sync is recorded or `now - lastSync > syncInterval`. -/
def handleNetworkChange (env : SyncEnv) (st : KwSyncState) (reply : FetchReply)
    (now syncInterval : Nat) : KwSyncState × Option SyncOutcome × Bool :=
  if env.online = false then (st, none, false)
  else if env.syncEnabled = false then (st, none, false)
  else
    let canSync := env.networkType = "any" ∨
      (env.networkType = "wifi_only" ∧ env.wifiConnected = true)
    if canSync then
      let due := match st.lastSyncAt with
        | none => true
        | some t => decide (now - t > syncInterval)
      if due then
        let r := syncKeywordsData false env st reply now
        (r.1, some r.2.1, r.2.2)
      else (st, none, false)
    else (st, none, false)

/-! ### Sync Coordinator for the official blacklist
(src/entrypoints/utils/blacklistService.ts lines 193-371) -/

/-- Cache TTL of the official blacklist (24h in ms). -/
def blacklistCacheTTL : Nat := 24 * 60 * 60 * 1000

/-- Persisted blacklist-sync state: the stored official list, conditional
validators, last sync timestamp and the TTL cache entry (data, storedAt). -/
structure BlkSyncState where
  official : List String
  blkUrl : String
  blkEtag : Option String
  blkLastModified : Option String
  blkLastSync : Nat
  blkCache : Option (List String × Nat)
deriving DecidableEq, Repr

/-- The `getCacheData` hit test (storageUtils.ts lines 152-190): present and
`now - timestamp < ttl` (the validator `Array.isArray` always holds here). -/
def blkCacheHit (st : BlkSyncState) (now : Nat) : Option (List String) :=
  match st.blkCache with
  | some (l, t) => if now - t < blacklistCacheTTL then some l else none
  | none => none

/-- Body parsing of `syncOfficialBlacklist` (blacklistService.ts lines
319-331): split on newlines, trim, drop blank and `#`/`//` comment lines,
lowercase. -/
def parseBlacklistText (textContent : String) : List String :=
  (((textContent.splitOn "\n").map String.trim).filter
    (fun line => line ≠ "" ∧ ¬ strStartsWith line "#" = true ∧
      ¬ strStartsWith line "//" = true)).map jsToLower

/-- The body of a blacklist fetch response: `none` models `response.text()`
throwing. -/
inductive BlkReply where
  | response (status : Nat) (etagHeader : Option String)
      (lastModifiedHeader : Option String) (body : Option String)
  | abortTimeout
  | networkError (message : String)
deriving DecidableEq, Repr

/-- Translation of `syncOfficialBlacklist` (blacklistService.ts lines
193-371) as a state transformer; `Except.error` models the function
throwing, and the third component records whether `fetch` was reached. -/
def syncOfficialBlacklist (forceSync : Bool) (online : Bool) (st : BlkSyncState)
    (reply : BlkReply) (now : Nat) : BlkSyncState × Except String (List String) × Bool :=
  match (if forceSync = false then blkCacheHit st now else none) with
  | some cached => (st, Except.ok cached, false)
  | none =>
    if online = false then
      if st.official ≠ [] then (st, Except.ok st.official, false)
      else (st, Except.error "设备当前处于离线状态且无可用的黑名单数据", false)
    else if st.blkUrl = "" then (st, Except.error "黑名单 URL 未配置", false)
    else
      match reply with
      | BlkReply.abortTimeout => (st, Except.error "同步请求超时", true)
      | BlkReply.networkError msg => (st, Except.error msg, true)
      | BlkReply.response status etagHeader lastModifiedHeader body =>
        if status = 304 then
          ({ st with blkLastSync := now }, Except.ok st.official, true)
        else if ¬ (200 ≤ status ∧ status ≤ 299) then
          let st1 := if status = 404 then
            { st with blkEtag := none, blkLastModified := none } else st
          (st1, Except.error ("HTTP 错误: " ++ toString status), true)
        else
          let st1 : BlkSyncState :=
            { st with
              blkEtag := match etagHeader with
                | some e => some e
                | none => st.blkEtag
              blkLastModified := match lastModifiedHeader with
                | some l => some l
                | none => st.blkLastModified }
          match body with
          | none => (st1, Except.error "无法解析服务器返回的黑名单数据", true)
          | some textContent =>
            let blacklist := parseBlacklistText textContent
            let st2 : BlkSyncState :=
              { st1 with
                official := blacklist
                blkLastSync := now
                blkCache := some (blacklist, now) }
            (st2, Except.ok blacklist, true)

/-! ### Retry loop of the keyword service
(src/entrypoints/utils/keywordService.ts lines 162-253) -/

/-- What one `triggerBackgroundSyncAndFetch` attempt amounts to for the retry
loop: data obtained, `null` without an exception, or an exception whose
`isRetryableError` classification is the recorded flag. -/
inductive FetchAttemptOutcome where
  | success
  | noData
  | failure (retryable : Bool)
deriving DecidableEq, Repr

def maxRetries : Nat := 3

/-- The un-jittered exponential delay of `getBackoffDelay`
(keywordService.ts lines 184-187): base 1s, cap 10s (`MAX_DELAY`). -/
def exponentialDelay (attempt : Nat) : ℚ := min 10000 (1000 * 2 ^ attempt)

/-- Translation of `getBackoffDelay` (keywordService.ts lines 183-190);
`rand` stands for the `Math.random()` sample in `[0,1]`. -/
def getBackoffDelay (attempt : Nat) (rand : ℚ) : ℚ :=
  let jitter := exponentialDelay attempt * (1 / 4) * (rand - 1 / 2) * 2
  max 0 (exponentialDelay attempt + jitter)

/-- Number of fetch attempts performed by the `while (retryCount <=
MAX_RETRIES)` loop of `fetchKeywordSetsFromRemote` (keywordService.ts lines
192-250), given the sequence of attempt outcomes: success and `null`
results end the loop, a retryable failure retries only while `retryCount <
MAX_RETRIES`. -/
def fetchAttemptCount : Nat → List FetchAttemptOutcome → Nat
  | _, [] => 0
  | retryCount, o :: rest =>
    match o with
    | FetchAttemptOutcome.success => 1
    | FetchAttemptOutcome.noData => 1
    | FetchAttemptOutcome.failure r =>
      if r = true ∧ retryCount < maxRetries then
        1 + fetchAttemptCount (retryCount + 1) rest
      else 1

/-! ## Concrete inputs used by counterexamples and witnesses -/

/-- A form context whose label matches a url keyword exactly, on a detected
comment form whose page URL contains `profile`. -/
def boostContext : FormContext :=
  ⟨none, none, ["website"], [], some "comment", "http://x/profile", none⟩

def boostOptions : PartialMatchOptions :=
  ⟨none, none, none, none, none, none, none, some boostContext⟩

/-- Blacklist state with the wildcard entry in the official list. -/
def baiduOfficialStatus : BlacklistStatus := ⟨true, "", ["*.baidu.com"], [], 0⟩

/-- Blacklist state with the wildcard entry in the user list. -/
def baiduUserStatus : BlacklistStatus := ⟨true, "", [], ["*.baidu.com"], 0⟩

/-- A keyword-sync store holding a prior snapshot, an old ETag validator and
a recorded last sync at t=1000. -/
def demoKwState : KwSyncState :=
  ⟨some ⟨["author"], ["email"], ["website"]⟩, some "old-etag", none, some 1000⟩

/-- A fetch-eligible environment: online, sync enabled, default URL, no
network-class restriction. -/
def demoSyncEnv : SyncEnv :=
  ⟨true, true, "https://cos.lhasa.icu/EasyFill/keywords.json", "any", true⟩

/-! ## Claims -/

/-- C1, counterexample. The cache key of `MatchCache.createKey` contains the
sorted attribute list and four option flags but not the keyword sets, so
after `smartMatchKeywords` has cached the result for a keyword set
containing `author`, the same call against a keyword set in which `name`
has no keywords at all returns the stale cached exact match instead of the
direct `enhancedMatchKeywords` result (which matches nothing): memoization
is not transparent. -/
theorem smartMatch_cache_ignores_keyword_sets :
    (smartMatchKeywords [("name", [])] ["author"] emptyPartialOptions
        (smartMatchKeywords [("name", ["author"])] ["author"] emptyPartialOptions []).2).1 ≠
      enhancedMatchKeywords [("name", [])] ["author"] emptyPartialOptions := by
  with_unfolding_all decide

/-- C1, amended: memoization is transparent only on a cache miss — when the
cache holds no entry for the key derived from the attribute list and the
threshold/enableFuzzy/enableSubstring/caseSensitive flags,
`smartMatchKeywords` returns exactly the uncached `enhancedMatchKeywords`
result; a cache hit returns the stored result even when the keyword sets or
the non-keyed options differ from those that produced it. -/
theorem smartMatch_transparent_on_cache_miss (keywordSets : KeywordSets)
    (attributes : List String) (popts : PartialMatchOptions) (cache : MatchCache)
    (h : matchCacheGet cache attributes popts = none) :
    (smartMatchKeywords keywordSets attributes popts cache).1 =
      enhancedMatchKeywords keywordSets attributes popts := by
  unfold smartMatchKeywords
  rw [h]

/-- C1, witness for `smartMatch_transparent_on_cache_miss` on the empty
cache. -/
theorem smartMatch_transparent_on_cache_miss_witness :
    (smartMatchKeywords [("name", ["author"])] ["author"] emptyPartialOptions []).1 =
      enhancedMatchKeywords [("name", ["author"])] ["author"] emptyPartialOptions :=
  smartMatch_transparent_on_cache_miss [("name", ["author"])] ["author"]
    emptyPartialOptions [] (by with_unfolding_all decide)

/-- C4. The code contradicts its own documentation (`confidence - 置信度
(0-1)`, part_015 lines 20, 27): on the form context `boostContext` the
contextual strategy multiplies a perfect label similarity (1.0) by the
comment-form url boost (1.2) and the profile-path boost (1.05) without
clamping, and `enhancedMatchKeywords` returns confidence 63/50 = 1.26 > 1. -/
theorem enhancedMatch_confidence_exceeds_one :
    (enhancedMatchKeywords [("url", ["website"])] ["zzz"] boostOptions).confidence = 63 / 50 ∧
    1 < (enhancedMatchKeywords [("url", ["website"])] ["zzz"] boostOptions).confidence ∧
    (enhancedMatchKeywords [("url", ["website"])] ["zzz"] boostOptions).matched = true := by
  refine ⟨by with_unfolding_all decide, ?_, by with_unfolding_all decide⟩
  have h : (enhancedMatchKeywords [("url", ["website"])] ["zzz"] boostOptions).confidence
      = 63 / 50 := by with_unfolding_all decide
  rw [h]
  norm_num

/-- C10. A 304 reply advances the last-sync timestamp only: for the keyword
coordinator (background.ts lines 652-658) the snapshot and both validators
are returned unchanged with a success outcome carrying no data, and for the
blacklist coordinator (blacklistService.ts lines 274-280) the stored
official list, validators and cache are unchanged and the previously stored
list is returned. -/
theorem sync_304_updates_timestamp_only :
    (∀ (force : Bool) (env : SyncEnv) (st : KwSyncState)
        (e l : Option String) (b : JsonBody) (now : Nat),
      env.online = true →
      (env.syncEnabled = true ∨ force = true) →
      env.keywordsUrl ≠ "" →
      (force = true ∨ env.networkType ≠ "wifi_only" ∨ env.wifiConnected = true) →
      syncKeywordsData force env st (FetchReply.response 304 e l b) now =
        ({ st with lastSyncAt := some now }, ⟨true, "关键字数据未更新", none⟩, true)) ∧
    (∀ (st : BlkSyncState) (e l : Option String) (b : Option String) (now : Nat),
      blkCacheHit st now = none →
      st.blkUrl ≠ "" →
      syncOfficialBlacklist false true st (BlkReply.response 304 e l b) now =
        ({ st with blkLastSync := now }, Except.ok st.official, true)) := by
  constructor
  · intro force env st e l b now honline henabled hurl hnet
    unfold syncKeywordsData
    rw [if_neg (by simp [honline]), if_neg, if_neg (by simp [hurl]), if_neg]
    · simp
    · rcases hnet with h | h | h <;> simp [h]
    · rcases henabled with h | h <;> simp [h]
  · intro st e l b now hmiss hurl
    unfold syncOfficialBlacklist
    rw [if_pos rfl, hmiss]
    rw [if_neg (by simp), if_neg (by simp [hurl])]
    simp

/-- C10, witness for `sync_304_updates_timestamp_only` at concrete states. -/
theorem sync_304_updates_timestamp_only_witness :
    (syncKeywordsData false demoSyncEnv demoKwState
        (FetchReply.response 304 none none JsonBody.invalid) 2000 =
      ({ demoKwState with lastSyncAt := some 2000 }, ⟨true, "关键字数据未更新", none⟩, true)) ∧
    (syncOfficialBlacklist false true ⟨["a.com"], "u", some "e", none, 7, none⟩
        (BlkReply.response 304 none none none) 2000 =
      ({ official := ["a.com"], blkUrl := "u", blkEtag := some "e",
          blkLastModified := none, blkLastSync := 2000, blkCache := none },
        Except.ok ["a.com"], true)) := by
  constructor
  · exact sync_304_updates_timestamp_only.1 false demoSyncEnv demoKwState none none
      JsonBody.invalid 2000 rfl (Or.inl rfl) (by decide) (Or.inr (Or.inl (by decide)))
  · exact sync_304_updates_timestamp_only.2 ⟨["a.com"], "u", some "e", none, 7, none⟩
      none none none 2000 rfl (by decide)

/-- C2, counterexample. A 2xx response whose body fails to parse is a
failing terminal outcome, yet the new ETag validator (stored before the
body is parsed, background.ts lines 689-706) has advanced while the
snapshot and timestamp have not: the three stored values are not updated
atomically. -/
theorem syncKeywords_validators_advance_on_parse_failure :
    ((syncKeywordsData false demoSyncEnv demoKwState
        (FetchReply.response 200 (some "abc") none JsonBody.unparseable) 2000).2.1.success
      = false) ∧
    (syncKeywordsData false demoSyncEnv demoKwState
        (FetchReply.response 200 (some "abc") none JsonBody.unparseable) 2000).1.etag
      = some "abc" ∧
    demoKwState.etag = some "old-etag" ∧
    (syncKeywordsData false demoSyncEnv demoKwState
        (FetchReply.response 200 (some "abc") none JsonBody.unparseable) 2000).1.snapshot
      = demoKwState.snapshot := by
  with_unfolding_all decide

/-- C2, amended: the snapshot and `lastSyncAt` are never changed by a
failing terminal outcome, and a successful outcome carrying data stores
exactly that data and sets `lastSyncAt := now`; the validators, however,
are outside this frame — a 404 clears them and a 2xx response saves the
new ones before the body is parsed, so a parse/schema failure can leave
them advanced. -/
theorem syncKeywords_snapshot_timestamp_frame (force : Bool) (env : SyncEnv)
    (st : KwSyncState) (reply : FetchReply) (now : Nat) :
    ((syncKeywordsData force env st reply now).2.1.success = false →
      (syncKeywordsData force env st reply now).1.snapshot = st.snapshot ∧
      (syncKeywordsData force env st reply now).1.lastSyncAt = st.lastSyncAt) ∧
    (∀ d, (syncKeywordsData force env st reply now).2.1.data = some d →
      (syncKeywordsData force env st reply now).2.1.success = true ∧
      (syncKeywordsData force env st reply now).1.snapshot = some d ∧
      (syncKeywordsData force env st reply now).1.lastSyncAt = some now) := by
  unfold syncKeywordsData
  split_ifs with h1 h2 h3 h4
  · exact ⟨fun _ => ⟨rfl, rfl⟩, fun d h => h.elim⟩
  · exact ⟨fun _ => ⟨rfl, rfl⟩, fun d h => h.elim⟩
  · exact ⟨fun _ => ⟨rfl, rfl⟩, fun d h => h.elim⟩
  · exact ⟨fun _ => ⟨rfl, rfl⟩, fun d h => h.elim⟩
  · cases reply with
    | abortTimeout => exact ⟨fun _ => ⟨rfl, rfl⟩, fun d h => Option.noConfusion h⟩
    | networkError msg => exact ⟨fun _ => ⟨rfl, rfl⟩, fun d h => Option.noConfusion h⟩
    | response status e l b =>
      dsimp only
      split_ifs with h304 hok h404
      · exact ⟨fun h => h.elim, fun d h => h.elim⟩
      · cases b with
        | unparseable => exact ⟨fun _ => ⟨rfl, rfl⟩, fun d h => Option.noConfusion h⟩
        | invalid => exact ⟨fun _ => ⟨rfl, rfl⟩, fun d h => Option.noConfusion h⟩
        | valid d =>
          refine ⟨fun h => Bool.noConfusion h, fun d2 h => ?_⟩
          injection h with hd
          subst hd
          exact ⟨rfl, rfl, rfl⟩
      · exact ⟨fun _ => ⟨rfl, rfl⟩, fun d h => h.elim⟩
      · exact ⟨fun _ => ⟨rfl, rfl⟩, fun d h => h.elim⟩

/-- C2, witness for `syncKeywords_snapshot_timestamp_frame` on a failing
parse after a 200 response. -/
theorem syncKeywords_snapshot_timestamp_frame_witness :
    (syncKeywordsData false demoSyncEnv demoKwState
        (FetchReply.response 200 (some "abc") none JsonBody.unparseable) 2000).1.snapshot
      = demoKwState.snapshot ∧
    (syncKeywordsData false demoSyncEnv demoKwState
        (FetchReply.response 200 (some "abc") none JsonBody.unparseable) 2000).1.lastSyncAt
      = demoKwState.lastSyncAt :=
  (syncKeywords_snapshot_timestamp_frame false demoSyncEnv demoKwState
    (FetchReply.response 200 (some "abc") none JsonBody.unparseable) 2000).1
    (by with_unfolding_all decide)

/-- C3, counterexample. `syncKeywordsData` performs no due-check: with a
sync recorded at t=1000 and no elapsed time (now=1000, so
`now - lastSyncAt = 0 ≤ syncIntervalMs` for every interval), two immediate
non-forced calls both reach `fetch` — two network requests, not at most
one. -/
theorem syncKeywords_second_nonforced_call_fetches_again :
    (syncKeywordsData false demoSyncEnv demoKwState
        (FetchReply.response 304 none none JsonBody.invalid) 1000).2.2 = true ∧
    (syncKeywordsData false demoSyncEnv
        (syncKeywordsData false demoSyncEnv demoKwState
          (FetchReply.response 304 none none JsonBody.invalid) 1000).1
        (FetchReply.response 304 none none JsonBody.invalid) 1000).2.2 = true := by
  with_unfolding_all decide

/-- C3, amended: the not-due short-circuit lives in the guarded callers,
not in the coordinator itself — `handleNetworkChange` issues no fetch
whenever a prior sync is recorded and `now - lastSyncAt ≤ syncIntervalMs`,
while a direct non-forced `syncKeywordsData` call in a fetch-eligible
environment always issues a (conditional) request. -/
theorem syncKeywords_due_check_is_in_guarded_caller :
    (∀ (env : SyncEnv) (st : KwSyncState) (reply : FetchReply)
        (now syncInterval t : Nat),
      st.lastSyncAt = some t → now - t ≤ syncInterval →
      (handleNetworkChange env st reply now syncInterval).2.2 = false) ∧
    (∀ (env : SyncEnv) (st : KwSyncState) (reply : FetchReply) (now : Nat),
      env.online = true → env.syncEnabled = true → env.keywordsUrl ≠ "" →
      (env.networkType ≠ "wifi_only" ∨ env.wifiConnected = true) →
      (syncKeywordsData false env st reply now).2.2 = true) := by
  constructor
  · intro env st reply now syncInterval t hlast hdue
    unfold handleNetworkChange
    split_ifs with h1 h2
    · rfl
    · rfl
    · rw [hlast]
      have hnd : decide (now - t > syncInterval) = false := by
        simp [Nat.not_lt.mpr hdue]
      simp only [hnd]
      split_ifs with hc hd
      · exact absurd hd (by simp)
      · rfl
      · rfl
  · intro env st reply now honline henabled hurl hnet
    unfold syncKeywordsData
    rw [if_neg (by simp [honline]), if_neg (by simp [henabled]),
      if_neg (by simp [hurl]), if_neg]
    · cases reply with
      | abortTimeout => rfl
      | networkError msg => rfl
      | response status e l b =>
        dsimp only
        split_ifs <;> first | rfl | (cases b <;> rfl)
    · rcases hnet with h | h <;> simp [h]

/-- C3, witness for `syncKeywords_due_check_is_in_guarded_caller`: the
guarded caller skips the fetch right after a sync, the direct call does
not. -/
theorem syncKeywords_due_check_is_in_guarded_caller_witness :
    (handleNetworkChange demoSyncEnv demoKwState
        (FetchReply.response 304 none none JsonBody.invalid) 1000 3600000).2.2 = false ∧
    (syncKeywordsData false demoSyncEnv demoKwState
        (FetchReply.response 304 none none JsonBody.invalid) 1000).2.2 = true := by
  constructor
  · exact syncKeywords_due_check_is_in_guarded_caller.1 demoSyncEnv demoKwState
      (FetchReply.response 304 none none JsonBody.invalid) 1000 3600000 1000 rfl
      (by norm_num)
  · exact syncKeywords_due_check_is_in_guarded_caller.2 demoSyncEnv demoKwState
      (FetchReply.response 304 none none JsonBody.invalid) 1000 rfl rfl (by decide)
      (Or.inl (by decide))

/-- C7. The retry loop of `fetchKeywordSetsFromRemote`: three consecutive
retryable failures yield exactly four attempts (1 initial + `MAX_RETRIES`
= 3 retries) whatever happens afterwards; every computed backoff delay lies
in `[0.75·d, 1.25·d]` of the un-jittered exponential delay `d =
min(10s, 1s·2^attempt)`; and a non-retryable failure or a data-less
background answer ends the loop after a single attempt. -/
theorem fetchRetry_backoff_spec :
    (∀ (o : FetchAttemptOutcome) (rest : List FetchAttemptOutcome),
      fetchAttemptCount 0
        (FetchAttemptOutcome.failure true :: FetchAttemptOutcome.failure true ::
          FetchAttemptOutcome.failure true :: o :: rest) = 4) ∧
    (∀ (attempt : Nat) (rand : ℚ), 0 ≤ rand → rand ≤ 1 →
      exponentialDelay attempt * (3 / 4) ≤ getBackoffDelay attempt rand ∧
      getBackoffDelay attempt rand ≤ exponentialDelay attempt * (5 / 4)) ∧
    (∀ rest, fetchAttemptCount 0 (FetchAttemptOutcome.failure false :: rest) = 1) ∧
    (∀ rest, fetchAttemptCount 0 (FetchAttemptOutcome.noData :: rest) = 1) := by
  refine ⟨?_, ?_, ?_, ?_⟩
  · intro o rest
    cases o <;> simp [fetchAttemptCount, maxRetries]
  · intro attempt rand h0 h1
    have hd : 0 < exponentialDelay attempt := by
      unfold exponentialDelay
      positivity
    have hlow : exponentialDelay attempt * (3 / 4) ≤
        exponentialDelay attempt +
          exponentialDelay attempt * (1 / 4) * (rand - 1 / 2) * 2 := by
      nlinarith [mul_nonneg hd.le h0]
    have hhigh : exponentialDelay attempt +
        exponentialDelay attempt * (1 / 4) * (rand - 1 / 2) * 2 ≤
        exponentialDelay attempt * (5 / 4) := by
      nlinarith [mul_nonneg hd.le (sub_nonneg.mpr h1)]
    have heq : getBackoffDelay attempt rand =
        exponentialDelay attempt +
          exponentialDelay attempt * (1 / 4) * (rand - 1 / 2) * 2 := by
      unfold getBackoffDelay
      exact max_eq_right (le_trans (by nlinarith) hlow)
    rw [heq]
    exact ⟨hlow, hhigh⟩
  · intro rest
    simp [fetchAttemptCount]
  · intro rest
    simp [fetchAttemptCount]

/-- C7, witness for `fetchRetry_backoff_spec` at the first retry with the
median random sample. -/
theorem fetchRetry_backoff_spec_witness :
    exponentialDelay 1 * (3 / 4) ≤ getBackoffDelay 1 (1 / 2) ∧
    getBackoffDelay 1 (1 / 2) ≤ exponentialDelay 1 * (5 / 4) :=
  fetchRetry_backoff_spec.2.1 1 (1 / 2) (by norm_num) (by norm_num)

theorem blacklistEntryMatches_eq_spec (nd e : String) :
    blacklistEntryMatches nd e = specEntryMatches nd e := by
  unfold blacklistEntryMatches specEntryMatches
  by_cases h : strStartsWith (jsToLower e) "*." = true <;> simp [h, Bool.or_comm]

/-- C8. With the blacklist enabled, `checkDomainInBlacklist` denies exactly
the hostnames matched by some entry of the official∪user union under the
spec matching rule (wildcard `*.suffix` matches the suffix and its
subdomains, plain entries match themselves and their subdomains); in
particular `*.baidu.com` in either list blocks `a.b.baidu.com` and
`baidu.com` but not `notbaidu.com`. -/
theorem checkDomainInBlacklist_spec :
    (∀ (st : BlacklistStatus) (domain : String), st.blacklistEnabled = true →
      ((checkDomainInBlacklist st domain).allowed = false ↔
        ∃ e ∈ st.officialBlacklist ++ st.userBlacklist,
          specEntryMatches (jsToLower domain) e = true)) ∧
    (checkDomainInBlacklist baiduOfficialStatus "a.b.baidu.com").allowed = false ∧
    (checkDomainInBlacklist baiduOfficialStatus "baidu.com").allowed = false ∧
    (checkDomainInBlacklist baiduOfficialStatus "notbaidu.com").allowed = true ∧
    (checkDomainInBlacklist baiduUserStatus "a.b.baidu.com").allowed = false ∧
    (checkDomainInBlacklist baiduUserStatus "baidu.com").allowed = false := by
  refine ⟨?_, by decide, by decide, by decide, by decide, by decide⟩
  intro st domain hen
  unfold checkDomainInBlacklist
  rw [if_pos hen]
  split_ifs with hany
  · constructor
    · intro _
      rw [List.any_eq_true] at hany
      obtain ⟨e, he, hm⟩ := hany
      refine ⟨e, he, ?_⟩
      rw [← blacklistEntryMatches_eq_spec]
      exact hm
    · intro _
      rfl
  · constructor
    · intro h
      exact h.elim
    · intro hex
      obtain ⟨e, he, hm⟩ := hex
      exfalso
      apply hany
      rw [List.any_eq_true]
      refine ⟨e, he, ?_⟩
      rw [blacklistEntryMatches_eq_spec]
      exact hm

/-- C8, witness for `checkDomainInBlacklist_spec` on the wildcard entry. -/
theorem checkDomainInBlacklist_spec_witness :
    (checkDomainInBlacklist baiduOfficialStatus "a.b.baidu.com").allowed = false ↔
      ∃ e ∈ baiduOfficialStatus.officialBlacklist ++ baiduOfficialStatus.userBlacklist,
        specEntryMatches (jsToLower "a.b.baidu.com") e = true :=
  checkDomainInBlacklist_spec.1 baiduOfficialStatus "a.b.baidu.com" rfl

theorem jsToLower_empty_iff (s : String) : jsToLower s = "" ↔ s = "" := by
  cases s with
  | mk l =>
    cases l with
    | nil => simp [jsToLower]
    | cons c cs => simp [jsToLower, String.ext_iff]

theorem strContains_empty_needle (s : String) : strContains s "" = true := by
  unfold strContains
  cases hd : s.data with
  | nil => simp [List.isPrefixOf]
  | cons c cs => simp [List.isPrefixOf]

/-- C6. `stringSimilarity` implements the spec rules in priority order:
1.0 on case-folded equality; `min(len)/max(len)·0.9` on case-folded
containment; otherwise `1 - levenshtein/max(len)` over the case-folded
strings; both inputs empty give 1.0 and exactly one empty gives 0.0; it is
reflexive and always lands in `[0,1]`. -/
theorem stringSimilarity_matches_spec (a b : String) :
    (jsToLower a = jsToLower b → stringSimilarity a b = 1) ∧
    (a = "" ∧ b = "" → stringSimilarity a b = 1) ∧
    ((a = "" ∧ b ≠ "") ∨ (a ≠ "" ∧ b = "") → stringSimilarity a b = 0) ∧
    (jsToLower a ≠ jsToLower b →
      (strContains (jsToLower a) (jsToLower b) = true ∨
        strContains (jsToLower b) (jsToLower a) = true) →
      stringSimilarity a b =
        ((Nat.min a.length b.length : ℚ) / (Nat.max a.length b.length : ℚ)) * (9 / 10)) ∧
    (jsToLower a ≠ jsToLower b →
      ¬ (strContains (jsToLower a) (jsToLower b) = true ∨
          strContains (jsToLower b) (jsToLower a) = true) →
      stringSimilarity a b =
        1 - (levenshtein (jsToLower a).data (jsToLower b).data : ℚ) /
          (Nat.max a.length b.length : ℚ)) ∧
    stringSimilarity a a = 1 ∧
    (0 ≤ stringSimilarity a b ∧ stringSimilarity a b ≤ 1) := by
  refine ⟨?_, ?_, ?_, ?_, ?_, stringSimilarity_self a,
    stringSimilarity_nonneg a b, stringSimilarity_le_one a b⟩
  · intro heq
    by_cases ha : a = ""
    · have hb : b = "" := by
        rw [← jsToLower_empty_iff, ← heq, ha]
        rfl
      simp [stringSimilarity, ha, hb]
    · have hb : b ≠ "" := by
        intro hb
        apply ha
        rw [← jsToLower_empty_iff, heq, hb]
        rfl
      simp [stringSimilarity, ha, hb, heq]
  · intro h
    simp [stringSimilarity, h.1, h.2]
  · intro h
    rcases h with ⟨ha, hb⟩ | ⟨ha, hb⟩
    · simp [stringSimilarity, ha, hb]
    · simp [stringSimilarity, ha, hb]
  · intro hne hcon
    by_cases ha : a = ""
    · have hb : b ≠ "" := by
        intro hb
        exact hne (by rw [ha, hb])
      have hsim : stringSimilarity a b = 0 := by
        simp [stringSimilarity, ha, hb]
      rw [hsim, ha]
      simp
    · by_cases hb : b = ""
      · have hsim : stringSimilarity a b = 0 := by
          simp [stringSimilarity, ha, hb]
        rw [hsim, hb]
        simp
      · unfold stringSimilarity
        rw [if_neg (by tauto), if_neg (by tauto), if_neg hne, if_pos hcon,
          jsToLower_length, jsToLower_length]
  · intro hne hncon
    have ha : a ≠ "" := by
      intro ha
      apply hncon
      refine Or.inr ?_
      rw [ha]
      exact strContains_empty_needle (jsToLower b)
    have hb : b ≠ "" := by
      intro hb
      apply hncon
      refine Or.inl ?_
      rw [hb]
      exact strContains_empty_needle (jsToLower a)
    unfold stringSimilarity
    rw [if_neg (by tauto), if_neg (by tauto), if_neg hne, if_neg hncon,
      jsToLower_length, jsToLower_length]

/-! Helper development for the matching-engine claims: the fuzzy-threshold
invariant carried through the strategy folds, and the case analysis of the
role loop. -/

/-- Invariant of the accumulated best result: a result attributed to the
fuzzy strategy always carries a confidence at or above the threshold. -/
def fuzzyInv (opts : MatchOptions) (m : MatchResult) : Prop :=
  m.method = MatchMethod.fuzzy → opts.threshold ≤ m.confidence

theorem foldl_preserves {α β : Type} (P : α → Prop) (f : α → β → α)
    (hf : ∀ a b, P a → P (f a b)) :
    ∀ (l : List β) (a : α), P a → P (List.foldl f a l) := by
  intro l
  induction l with
  | nil => exact fun a h => h
  | cons x xs ih => exact fun a h => ih (f a x) (hf a x h)

theorem fuzzyInv_substringStep (opts : MatchOptions) (ft attr kw : String)
    (acc : MatchResult) (h : fuzzyInv opts acc) :
    fuzzyInv opts (substringStep opts ft attr acc kw) := by
  unfold substringStep
  dsimp only
  split_ifs <;> first
    | exact h
    | (intro hm; exact MatchMethod.noConfusion hm)

theorem fuzzyInv_fuzzyStep (opts : MatchOptions) (ft attr kw : String)
    (acc : MatchResult) (h : fuzzyInv opts acc) :
    fuzzyInv opts (fuzzyStep opts ft attr acc kw) := by
  unfold fuzzyStep
  dsimp only
  split_ifs with h1 h2 h3
  · intro _
    exact h2.1
  · exact h
  · intro _
    exact h3.1
  · exact h

theorem fuzzyInv_contextPass (opts : MatchOptions) (ft : String)
    (kws : List String) (acc : MatchResult) (h : fuzzyInv opts acc) :
    fuzzyInv opts (contextPass opts ft kws acc) := by
  unfold contextPass
  split_ifs with h1
  · cases hfc : opts.formContext with
    | some ctx =>
      dsimp only
      split_ifs <;> first
        | exact h
        | (intro hm; exact MatchMethod.noConfusion hm)
    | none => exact h
  · exact h

theorem fuzzyInv_substringPass (opts : MatchOptions) (ft : String)
    (normAttrs kws : List String) (acc : MatchResult) (h : fuzzyInv opts acc) :
    fuzzyInv opts (substringPass opts ft normAttrs kws acc) := by
  unfold substringPass
  refine foldl_preserves (fuzzyInv opts) _ ?_ normAttrs acc h
  intro a attr ha
  exact foldl_preserves (fuzzyInv opts) _
    (fun a2 kw ha2 => fuzzyInv_substringStep opts ft attr kw a2 ha2) kws a ha

theorem fuzzyInv_fuzzyPass (opts : MatchOptions) (ft : String)
    (normAttrs kws : List String) (acc : MatchResult) (h : fuzzyInv opts acc) :
    fuzzyInv opts (fuzzyPass opts ft normAttrs kws acc) := by
  unfold fuzzyPass
  refine foldl_preserves (fuzzyInv opts) _ ?_ normAttrs acc h
  intro a attr ha
  exact foldl_preserves (fuzzyInv opts) _
    (fun a2 kw ha2 => fuzzyInv_fuzzyStep opts ft attr kw a2 ha2) kws a ha

theorem fuzzyInv_roleStep (opts : MatchOptions) (normAttrs : List String)
    (acc : MatchResult) (role : String × List String) (h : fuzzyInv opts acc) :
    fuzzyInv opts (roleStep opts normAttrs acc role) := by
  unfold roleStep
  dsimp only
  apply fuzzyInv_contextPass
  split_ifs with h1 h2
  · exact fuzzyInv_fuzzyPass _ _ _ _ _ (fuzzyInv_substringPass _ _ _ _ _ h)
  · exact fuzzyInv_fuzzyPass _ _ _ _ _ h
  · exact fuzzyInv_substringPass _ _ _ _ _ h
  · exact h

theorem matchRoles_cases (opts : MatchOptions) (normAttrs : List String) :
    ∀ (roles : List (String × List String)) (acc : MatchResult),
      fuzzyInv opts acc →
      (∃ ft x, matchRoles opts normAttrs roles acc =
        Sum.inl ⟨true, ft, 1, MatchMethod.exact, some x⟩) ∨
      (∃ m, matchRoles opts normAttrs roles acc = Sum.inr m ∧ fuzzyInv opts m) := by
  intro roles
  induction roles with
  | nil => exact fun acc h => Or.inr ⟨acc, rfl, h⟩
  | cons role rest ih =>
    intro acc h
    simp only [matchRoles]
    cases hE : (if opts.prioritizeExact then exactFind opts normAttrs role.2 else none) with
    | some x => exact Or.inl ⟨role.1, x, rfl⟩
    | none => exact ih _ (fuzzyInv_roleStep _ _ _ _ h)

theorem enhancedMatch_eq_cases (keywordSets : KeywordSets)
    (attributes : List String) (popts : PartialMatchOptions) :
    enhancedMatchKeywords keywordSets attributes popts = emptyResult ∨
    ∃ normAttrs, enhancedMatchKeywords keywordSets attributes popts =
      finishMatch (mergeOptions popts)
        (matchRoles (mergeOptions popts) normAttrs keywordSets emptyResult) := by
  unfold enhancedMatchKeywords
  dsimp only
  split_ifs with h1 h2 h3
  all_goals first
    | exact Or.inl rfl
    | exact Or.inr ⟨_, rfl⟩

/-- C9. The final threshold gate and the fuzzy admission rule: a result won
by the substring, fuzzy or contextual strategy with confidence below the
threshold is returned with `matched := false`, and a result attributed to
the fuzzy strategy always has confidence at or above the threshold (fuzzy
candidates below the threshold are never admitted into the ranking). -/
theorem enhancedMatch_threshold_gating (keywordSets : KeywordSets)
    (attributes : List String) (popts : PartialMatchOptions) :
    ((enhancedMatchKeywords keywordSets attributes popts).method = MatchMethod.substring ∨
      (enhancedMatchKeywords keywordSets attributes popts).method = MatchMethod.fuzzy ∨
      (enhancedMatchKeywords keywordSets attributes popts).method = MatchMethod.context →
      (enhancedMatchKeywords keywordSets attributes popts).confidence <
        (mergeOptions popts).threshold →
      (enhancedMatchKeywords keywordSets attributes popts).matched = false) ∧
    ((enhancedMatchKeywords keywordSets attributes popts).method = MatchMethod.fuzzy →
      (mergeOptions popts).threshold ≤
        (enhancedMatchKeywords keywordSets attributes popts).confidence) := by
  rcases enhancedMatch_eq_cases keywordSets attributes popts with h | ⟨normAttrs, h⟩
  · rw [h]
    constructor
    · intro hm
      rcases hm with hm | hm | hm <;> exact absurd hm (by decide)
    · intro hm
      exact absurd hm (by decide)
  · rw [h]
    rcases matchRoles_cases (mergeOptions popts) normAttrs keywordSets emptyResult
        (fun hm => absurd hm (by decide)) with ⟨ft, x, he⟩ | ⟨m, he, hm⟩
    · rw [he]
      unfold finishMatch
      constructor
      · intro hmm
        rcases hmm with hmm | hmm | hmm <;> exact MatchMethod.noConfusion hmm
      · intro hmm
        exact MatchMethod.noConfusion hmm
    · rw [he]
      unfold finishMatch
      dsimp only
      split_ifs with hc
      · exact ⟨fun _ _ => rfl, fun hmm => hm hmm⟩
      · exact ⟨fun _ hlt => absurd hlt hc, fun hmm => hm hmm⟩

/-- C9, witness for `enhancedMatch_threshold_gating`: a substring result
below the default threshold is demoted to unmatched, and a fuzzy result
carries at least the threshold. -/
theorem enhancedMatch_threshold_gating_witness :
    (enhancedMatchKeywords [("name", ["author"])] ["auth"] emptyPartialOptions).matched
      = false ∧
    (mergeOptions emptyPartialOptions).threshold ≤
      (enhancedMatchKeywords [("email", ["email"])] ["emaik"] emptyPartialOptions).confidence := by
  constructor
  · exact (enhancedMatch_threshold_gating [("name", ["author"])] ["auth"]
      emptyPartialOptions).1 (Or.inl (by with_unfolding_all decide))
      (by with_unfolding_all decide)
  · exact (enhancedMatch_threshold_gating [("email", ["email"])] ["emaik"]
      emptyPartialOptions).2 (by with_unfolding_all decide)

theorem matchRoles_exact (opts : MatchOptions) (normAttrs : List String)
    (hpe : opts.prioritizeExact = true) (hcs : opts.caseSensitive = false)
    (hnorm : ∀ x ∈ normAttrs, jsToLower x = x) :
    ∀ (roles : List (String × List String)) (acc : MatchResult),
      (∃ r ∈ roles, ∃ x ∈ normAttrs, r.2.contains (jsToLower x) = true) →
      ∃ r ∈ roles, ∃ x, matchRoles opts normAttrs roles acc =
          Sum.inl ⟨true, r.1, 1, MatchMethod.exact, some x⟩ ∧ r.2.contains x = true := by
  intro roles
  induction roles with
  | nil =>
    intro acc h
    obtain ⟨r, hr, _⟩ := h
    exact absurd hr (List.not_mem_nil r)
  | cons role rest ih =>
    intro acc h
    simp only [matchRoles, hpe, if_true]
    cases hE : exactFind opts normAttrs role.2 with
    | some x =>
      have hE2 := hE
      unfold exactFind at hE2
      have hpred := List.find?_some hE2
      have hmem := List.mem_of_find?_eq_some hE2
      simp only [hcs] at hpred
      rw [if_neg (by simp)] at hpred
      refine ⟨role, List.mem_cons_self role rest, x, rfl, ?_⟩
      rw [← hnorm x hmem]
      exact hpred
    | none =>
      dsimp only
      obtain ⟨r, hr, x, hx, hcont⟩ := h
      rcases List.mem_cons.mp hr with heq | htl
      · exfalso
        have hE2 := hE
        unfold exactFind at hE2
        have hall := List.find?_eq_none.mp hE2
        apply hall x hx
        simp only [hcs]
        rw [if_neg (by simp)]
        rw [← heq]
        exact hcont
      · obtain ⟨r2, hr2, x2, heqr, hcont2⟩ :=
          ih (roleStep opts normAttrs acc role) ⟨r, htl, x, hx, hcont⟩
        exact ⟨r2, List.mem_cons_of_mem role hr2, x2, heqr, hcont2⟩

/-- C5. With `prioritizeExact` on and the default case-insensitive matching,
an attribute whose case-folding is literally present in some role keyword
set makes `enhancedMatchKeywords` return immediately through the exact
branch: `matched = true`, confidence exactly 1, method `exact`, and the
selected role is one whose keyword set literally contains the returned
matched token — never overridden by a higher-scoring substring, fuzzy or
contextual result from another role. -/
theorem enhancedMatch_exact_short_circuits (keywordSets : KeywordSets)
    (attributes : List String) (popts : PartialMatchOptions)
    (hpe : (mergeOptions popts).prioritizeExact = true)
    (hcs : (mergeOptions popts).caseSensitive = false)
    (t : String) (ht : t ∈ attributes) (htne : t ≠ "")
    (role : String × List String) (hrole : role ∈ keywordSets)
    (htok : role.2.contains (jsToLower t) = true) :
    (enhancedMatchKeywords keywordSets attributes popts).matched = true ∧
    (enhancedMatchKeywords keywordSets attributes popts).confidence = 1 ∧
    (enhancedMatchKeywords keywordSets attributes popts).method = MatchMethod.exact ∧
    ∃ r ∈ keywordSets,
      (enhancedMatchKeywords keywordSets attributes popts).fieldType = r.1 ∧
      ∃ kw, (enhancedMatchKeywords keywordSets attributes popts).keyword = some kw ∧
        r.2.contains kw = true := by
  have htv : t ∈ attributes.filter (fun a => a ≠ "") :=
    List.mem_filter.mpr ⟨ht, by simp [htne]⟩
  have hattrs_ne : attributes ≠ [] := List.ne_nil_of_mem ht
  have hvalid_ne : attributes.filter (fun a => a ≠ "") ≠ [] := List.ne_nil_of_mem htv
  have hnorm : ∀ x ∈ (attributes.filter (fun a => a ≠ "")).map jsToLower,
      jsToLower x = x := by
    intro x hx
    obtain ⟨y, hy, hyx⟩ := List.mem_map.mp hx
    rw [← hyx]
    exact jsToLower_idem y
  have hwit : ∃ r ∈ keywordSets,
      ∃ x ∈ (attributes.filter (fun a => a ≠ "")).map jsToLower,
        r.2.contains (jsToLower x) = true := by
    refine ⟨role, hrole, jsToLower t, List.mem_map.mpr ⟨t, htv, rfl⟩, ?_⟩
    rw [jsToLower_idem]
    exact htok
  obtain ⟨r, hr, x, heq, hcont⟩ := matchRoles_exact (mergeOptions popts) _
    hpe hcs hnorm keywordSets emptyResult hwit
  have hrw : enhancedMatchKeywords keywordSets attributes popts =
      finishMatch (mergeOptions popts)
        (matchRoles (mergeOptions popts)
          ((attributes.filter (fun a => a ≠ "")).map jsToLower) keywordSets
          emptyResult) := by
    unfold enhancedMatchKeywords
    dsimp only
    rw [if_neg (by simp only [List.isEmpty_eq_true]; exact hattrs_ne),
      if_neg (by simp only [List.isEmpty_eq_true]; exact hvalid_ne), hcs]
    rw [if_neg (by simp)]
  rw [hrw, heq]
  unfold finishMatch
  exact ⟨rfl, rfl, rfl, r, hr, rfl, x, rfl, hcont⟩

/-- C5, witness for `enhancedMatch_exact_short_circuits`: the attribute
`AUTHOR` case-folds into the `name` keyword set, while the `nickname` role
holds a weaker substring/fuzzy candidate. -/
theorem enhancedMatch_exact_short_circuits_witness :
    (enhancedMatchKeywords [("nickname", ["autho"]), ("name", ["author"])]
      ["AUTHOR"] emptyPartialOptions).matched = true ∧
    (enhancedMatchKeywords [("nickname", ["autho"]), ("name", ["author"])]
      ["AUTHOR"] emptyPartialOptions).confidence = 1 ∧
    (enhancedMatchKeywords [("nickname", ["autho"]), ("name", ["author"])]
      ["AUTHOR"] emptyPartialOptions).method = MatchMethod.exact ∧
    ∃ r ∈ ([("nickname", ["autho"]), ("name", ["author"])] : KeywordSets),
      (enhancedMatchKeywords [("nickname", ["autho"]), ("name", ["author"])]
        ["AUTHOR"] emptyPartialOptions).fieldType = r.1 ∧
      ∃ kw, (enhancedMatchKeywords [("nickname", ["autho"]), ("name", ["author"])]
          ["AUTHOR"] emptyPartialOptions).keyword = some kw ∧
        r.2.contains kw = true :=
  enhancedMatch_exact_short_circuits
    [("nickname", ["autho"]), ("name", ["author"])] ["AUTHOR"] emptyPartialOptions
    rfl rfl "AUTHOR" (List.mem_singleton.mpr rfl) (by decide)
    ("name", ["author"]) (by simp) (by with_unfolding_all decide)

/-- C6, witness for `stringSimilarity_matches_spec`: case-folded equality,
one empty input, a containment pair and a disjoint pair. -/
theorem stringSimilarity_matches_spec_witness :
    stringSimilarity "AB" "ab" = 1 ∧
    stringSimilarity "x" "" = 0 ∧
    stringSimilarity "ab" "abcd" =
      ((Nat.min (String.length "ab") (String.length "abcd") : ℚ) /
        (Nat.max (String.length "ab") (String.length "abcd") : ℚ)) * (9 / 10) ∧
    stringSimilarity "ab" "cd" =
      1 - (levenshtein (jsToLower "ab").data (jsToLower "cd").data : ℚ) /
        (Nat.max (String.length "ab") (String.length "cd") : ℚ) :=
  ⟨(stringSimilarity_matches_spec "AB" "ab").1 (by decide),
    (stringSimilarity_matches_spec "x" "").2.2.1 (Or.inr ⟨by decide, rfl⟩),
    (stringSimilarity_matches_spec "ab" "abcd").2.2.2.1 (by decide) (Or.inr (by decide)),
    (stringSimilarity_matches_spec "ab" "cd").2.2.2.2.1 (by decide) (by decide)⟩

end EasyFill
